import Mathlib

/-!
Shallow embedding of `hachoir_parser/image/gif.py` (the GIF picture parser)
and proofs about its behaviour.  Streams are modelled as lists of bytes
(`Nat`, with `< 256` hypotheses where overflow matters); bit positions are
explicit `Nat`s counted in bits, as in hachoir.  Field emission is modelled
as a list of emitted fields paired with an optional error: the pair captures
the partially built field tree at the moment a parse aborts.
-/

namespace Gif

/-- Maximum image dimension (in pixel), from the source constant. -/
def MAX_WIDTH : Nat := 6000

/-- Maximum image height, from the source constant (equal to the width bound). -/
def MAX_HEIGHT : Nat := MAX_WIDTH

/-- Maximum estimated file size in bytes, from the source constant. -/
def MAX_FILE_SIZE : Nat := 100 * 1024 * 1024

/-- Byte sequence of the signature literal "GIF87a". -/
def GIF87a : List Nat := [0x47, 0x49, 0x46, 0x38, 0x37, 0x61]

/-- Byte sequence of the signature literal "GIF89a". -/
def GIF89a : List Nat := [0x47, 0x49, 0x46, 0x38, 0x39, 0x61]

/-- The part of a GIF stream that `GifFile.validate` inspects: the first six
bytes and the decoded screen width and height. -/
structure GifHeader where
  header : List Nat
  width : Nat
  height : Nat
deriving DecidableEq

/-- Result of `GifFile.validate`: the strings returned by the Python method,
as an enumeration.  `wrongHeader` is the spec taxonomy's InvalidHeader;
`invalidImageSize`, `widthTooBig` and `heightTooBig` are its
DimensionOutOfRange. -/
inductive ValidateResult where
  | wrongHeader
  | invalidImageSize
  | widthTooBig (w : Nat)
  | heightTooBig (h : Nat)
  | valid
deriving DecidableEq

/-- Embedding of `GifFile.validate`: checks run in source order — signature
first, then zero dimensions, then the dimension maxima. -/
def validate (s : GifHeader) : ValidateResult :=
  if s.header ≠ GIF87a ∧ s.header ≠ GIF89a then .wrongHeader
  else if s.width = 0 ∨ s.height = 0 then .invalidImageSize
  else if MAX_WIDTH < s.width then .widthTooBig s.width
  else if MAX_HEIGHT < s.height then .heightTooBig s.height
  else .valid

/-- Decoded fields of the 7-byte Logical Screen Descriptor, as
`ScreenDescriptor.createFields` reads them. -/
structure ScreenDescriptor where
  width : Nat
  height : Nat
  bpp : Nat
  reserved : Nat
  color_res : Nat
  global_map : Nat
  background : Nat
  notused : Nat
deriving DecidableEq

/-- Embedding of `ScreenDescriptor.createFields` on the 7 raw bytes:
little-endian u16s, then a bitfield whose first-yielded bit group is the
least significant (hachoir little-endian bit order). -/
def parseScreenDescriptor (b0 b1 b2 b3 b4 b5 b6 : Nat) : ScreenDescriptor :=
  ⟨b0 + 256 * b1, b2 + 256 * b3,
   b4 % 8, b4 / 8 % 2, b4 / 16 % 8, b4 / 128 % 2,
   b5, b6⟩

/-- Re-serialization of a decoded screen descriptor back to its 7 bytes. -/
def serializeScreenDescriptor (s : ScreenDescriptor) : List Nat :=
  [s.width % 256, s.width / 256,
   s.height % 256, s.height / 256,
   s.bpp % 8 + 8 * (s.reserved % 2) + 16 * (s.color_res % 8) + 128 * (s.global_map % 2),
   s.background, s.notused]

/-- Value carried by an emitted field: an unsigned integer, a raw byte
span, or nothing decoded yet. -/
inductive FieldValue where
  | uint (n : Nat)
  | bytes (bs : List Nat)
deriving DecidableEq

/-- An emitted field: its name, its description string as written in the
source, and its decoded value. -/
structure Field where
  name : String
  description : String
  value : FieldValue
deriving DecidableEq

/-- Errors a parse can abort with.  `invalidGraphicControlSize` is the
`ParserError("Invalid graphic control size")` raised by
`parseGraphicControl` (the spec taxonomy's MalformedBlock);
`truncatedInput` stands for the stream running out mid-field. -/
inductive ParseError where
  | truncatedInput
  | invalidGraphicControlSize
deriving DecidableEq

/-- The five fields `parseGraphicControl` has yielded by the time it tests
the declared size: the size byte and the four bit groups of the flag byte
(hachoir little-endian bit order: first-yielded group is least
significant). -/
def gceHeaderFields (size flags : Nat) : List Field :=
  [⟨"size", "Block size (4)", .uint size⟩,
   ⟨"has_transp", "Has transparency", .uint (flags % 2)⟩,
   ⟨"user_input", "User input", .uint (flags / 2 % 2)⟩,
   ⟨"disposal_method", "", .uint (flags / 4 % 8)⟩,
   ⟨"reserved[]", "", .uint (flags / 32 % 8)⟩]

/-- Embedding of `parseGraphicControl`: yields the size byte, the flag bit
groups, then — only if the size byte equals 4 — the delay (little-endian
u16, with the description string written in the source), the transparent
color index and the terminator.  A size byte other than 4 aborts with
`invalidGraphicControlSize` after the flag byte has been decoded.  The
result pairs the fields emitted so far with the error, if any. -/
def parseGraphicControl (input : List Nat) : List Field × Option ParseError :=
  match input with
  | [] => ([], some .truncatedInput)
  | size :: rest =>
    match rest with
    | [] => ([⟨"size", "Block size (4)", .uint size⟩], some .truncatedInput)
    | flags :: rest2 =>
      let fs := gceHeaderFields size flags
      if size ≠ 4 then (fs, some .invalidGraphicControlSize)
      else
        match rest2 with
        | lo :: hi :: transp :: term :: _ =>
          (fs ++ [⟨"delay", "Delay time in millisecond", .uint (lo + 256 * hi)⟩,
                  ⟨"transp", "Transparent color index", .uint transp⟩,
                  ⟨"terminator", "Terminator (0)", .uint term⟩], none)
        | _ => (fs, some .truncatedInput)

/-- Modelled from the spec: hachoir_core's `PascalString8` (absent from
src/) reads a 1-byte length followed by that many content bytes, and its
`length` attribute is the content length in characters — the whitespace/NUL
strip requested by `parseComments` applies "for display only — not for
length accounting" (spec §4.4). -/
def parseComments (input : List Nat) : List Field × Option ParseError :=
  match input with
  | [] => ([], some .truncatedInput)
  | n :: rest =>
    if n ≤ rest.length then
      let f : Field := ⟨"comment[]", "", .bytes (rest.take n)⟩
      if n = 0 then ([f], none)
      else
        let r := parseComments (rest.drop n)
        (f :: r.1, r.2)
    else ([], some .truncatedInput)
termination_by input.length
decreasing_by simp; omega

/-- Embedding of `defaultExtensionParser`: repeated (size byte, payload)
pairs, stopping at a zero size byte. -/
def defaultExtensionParser (input : List Nat) : List Field × Option ParseError :=
  match input with
  | [] => ([], some .truncatedInput)
  | n :: rest =>
    let sizeF : Field := ⟨"size[]", "Size (in bytes)", .uint n⟩
    if 0 < n then
      if n ≤ rest.length then
        let r := defaultExtensionParser (rest.drop n)
        (sizeF :: ⟨"content[]", "", .bytes (rest.take n)⟩ :: r.1, r.2)
      else ([sizeF], some .truncatedInput)
    else ([sizeF], none)
termination_by input.length
decreasing_by simp; omega

/-- Bytes of the 11-character application name "NETSCAPE2.0". -/
def NETSCAPE20 : List Nat :=
  [0x4e, 0x45, 0x54, 0x53, 0x43, 0x41, 0x50, 0x45, 0x32, 0x2e, 0x30]

/-- The trailing `NullBytes terminator` field shared by the application
extension paths. -/
def finishTerminator (fs : List Field) (rest : List Nat) :
    List Field × Option ParseError :=
  match rest with
  | t :: _ => (fs ++ [⟨"terminator", "Terminator (0)", .uint t⟩], none)
  | [] => (fs, some .truncatedInput)

/-- Embedding of `parseApplicationExtension`: a length-prefixed application
name, a size byte, then — when the name is "NETSCAPE2.0" and size is 3 — a
netscape code byte followed, for code 1, by a little-endian u16 loop count
(otherwise 2 raw bytes); for any other name/size, `size` raw bytes; always
a final terminator byte. -/
def parseApplicationExtension (input : List Nat) : List Field × Option ParseError :=
  match input with
  | [] => ([], some .truncatedInput)
  | n :: rest =>
    if n ≤ rest.length then
      let name := rest.take n
      let base : List Field := [⟨"app_name", "Application name", .bytes name⟩]
      match rest.drop n with
      | [] => (base, some .truncatedInput)
      | size :: rest2 =>
        let base := base ++ [⟨"size", "", .uint size⟩]
        if name = NETSCAPE20 ∧ size = 3 then
          match rest2 with
          | [] => (base, some .truncatedInput)
          | code :: rest3 =>
            let base := base ++ [⟨"netscape_code", "", .uint code⟩]
            if code = 1 then
              match rest3 with
              | lo :: hi :: rest4 =>
                finishTerminator
                  (base ++ [⟨"loop_count", "", .uint (lo + 256 * hi)⟩]) rest4
              | _ => (base, some .truncatedInput)
            else
              if 2 ≤ rest3.length then
                finishTerminator
                  (base ++ [⟨"raw", "", .bytes (rest3.take 2)⟩]) (rest3.drop 2)
              else (base, some .truncatedInput)
        else
          if size ≤ rest2.length then
            finishTerminator
              (base ++ [⟨"raw", "", .bytes (rest2.take size)⟩]) (rest2.drop size)
          else (base, some .truncatedInput)
    else ([], some .truncatedInput)

/-- The preset description installed by `Extension.__init__` for the three
known extension codes; `none` for every other code, for which the lazy
`createDescription` will run instead. -/
def extensionPresetDescription (code : Nat) : Option String :=
  if code = 0xf9 then some "Graphic control"
  else if code = 0xfe then some "Comments"
  else if code = 0xff then some "Application extension"
  else none

/-- The sub-parser `Extension.__init__` selects for an extension code:
one of the three known parsers, or the generic fallback. -/
def extensionParserFor (code : Nat) : List Nat → List Field × Option ParseError :=
  if code = 0xf9 then parseGraphicControl
  else if code = 0xfe then parseComments
  else if code = 0xff then parseApplicationExtension
  else defaultExtensionParser

/-- Embedding of `Extension.createFields`: the code byte field followed by
whatever the selected sub-parser yields. -/
def extensionFields (input : List Nat) : List Field × Option ParseError :=
  match input with
  | [] => ([], some .truncatedInput)
  | code :: rest =>
    let r := extensionParserFor code rest
    (⟨"code", "Extension code", .uint code⟩ :: r.1, r.2)

/-- Lookup of a child field by name, as `self["func"]` does. -/
def lookupField (fs : List Field) (name : String) : Option Field :=
  fs.find? (fun f => f.name = name)

/-- Modelled from the spec: the field-tree substrate's lazy description
(hachoir_core, absent from src/) — a node whose description was preset at
construction never calls `createDescription`; otherwise
`Extension.createDescription` looks up the child field "func" and fails
(`none` here, a MissingField error in the substrate) when no such child
exists. -/
def extensionDescription (input : List Nat) : Option String :=
  match input with
  | [] => none
  | code :: _ =>
    match extensionPresetDescription code with
    | some d => some d
    | none =>
      match lookupField (extensionFields input).1 "func" with
      | some _ => some "Extension: function ?"
      | none => none

/-- Outcome of the block loop of `GifFile.createFields`, counting the
extension blocks parsed before the terminal event. -/
inductive LoopResult where
  | imageReached (nExt : Nat)
  | terminated (nExt : Nat)
  | unexpectedSeparator (nExt : Nat) (b : Nat)
  | truncated (nExt : Nat)
deriving DecidableEq

/-- Modelled from the spec for its error character: the block loop of
`GifFile.createFields` over the sequence of separator bytes (block payloads
abstracted away).  `'!'` (0x21) parses an extension and loops, `','` (0x2C)
enters the terminal image block, `';'` (0x3B) terminates; any other byte
stops the loop at once reporting the byte.  The fatality of `self.error`
lives in hachoir_core (absent from src/); per the spec it is a fatal
`UnexpectedSeparator` error. -/
def blockLoop : List Nat → LoopResult
  | [] => .truncated 0
  | b :: rest =>
    if b = 0x21 then
      match blockLoop rest with
      | .imageReached n => .imageReached (n + 1)
      | .terminated n => .terminated (n + 1)
      | .unexpectedSeparator n c => .unexpectedSeparator (n + 1) c
      | .truncated n => .truncated (n + 1)
    else if b = 0x2c then .imageReached 0
    else if b = 0x3b then .terminated 0
    else .unexpectedSeparator 0 b

/-- Whether the 2-byte pattern NUL, 0x3B occurs at byte index `i` of the
stream. -/
def matchesNulSemicolon (stream : List Nat) (i : Nat) : Bool :=
  stream[i]? = some 0 && stream[i + 1]? = some 0x3b

/-- Embedding of `stream.searchBytes("\0;", start, end)`: the bit address
of the first byte-aligned occurrence of the pattern at or after `startBits`
and before `endBits`, if any. -/
def searchNulSemicolon (stream : List Nat) (startBits endBits : Nat) : Option Nat :=
  ((List.range stream.length).find? (fun i =>
      decide (startBits ≤ 8 * i) && decide (8 * i < endBits) &&
      matchesNulSemicolon stream i)).map (fun i => 8 * i)

/-- Embedding of `GifFile.createContentSize`: search forward from the end
of the first image block (`imageEndBits`, a bit address) over a window of
`MAX_FILE_SIZE` bytes for the NUL, 0x3B pattern; Python's `if pos:` treats
both a missing result and bit position 0 as failure. -/
def createContentSize (stream : List Nat) (imageEndBits : Nat) : Option Nat :=
  match searchNulSemicolon stream imageEndBits (imageEndBits + MAX_FILE_SIZE * 8) with
  | some pos => if pos ≠ 0 then some (pos + 16) else none
  | none => none

/-- The length of a comment field: the number of content bytes of the
length-prefixed string it was read from. -/
def commentLength : Field → Nat
  | ⟨_, _, .bytes bs⟩ => bs.length
  | _ => 0

end Gif

/-- C1: the claim states that width=0 or height=0 yields the dimension error
even when the 6-byte signature is invalid.  False: `validate` tests the
signature first, so a stream with a bad signature and width=0 fails with the
wrong-header result, not the dimension result. -/
theorem C1_counterexample :
    Gif.validate ⟨[0, 0, 0, 0, 0, 0], 0, 1⟩ = .wrongHeader ∧
    Gif.ValidateResult.wrongHeader ≠ .invalidImageSize := by
  constructor
  · rfl
  · intro h
    cases h

/-- C1 (amended): when the signature is one of the two valid literals,
width=0 or height=0 makes `validate` fail with the dimension error
(`"Invalid image size"`, the spec's DimensionOutOfRange); with an invalid
signature the signature check fires first and validation fails with the
wrong-header result instead. -/
theorem C1_amended (s : Gif.GifHeader)
    (hsig : s.header = Gif.GIF87a ∨ s.header = Gif.GIF89a)
    (hdim : s.width = 0 ∨ s.height = 0) :
    Gif.validate s = .invalidImageSize := by
  unfold Gif.validate
  rcases hsig with h | h <;>
    simp [h, hdim, Gif.GIF87a, Gif.GIF89a]

/-- C1 amended witness: a concrete valid-signature stream with width 0. -/
theorem C1_amended_witness :
    Gif.validate ⟨Gif.GIF89a, 0, 5⟩ = .invalidImageSize :=
  C1_amended ⟨Gif.GIF89a, 0, 5⟩ (Or.inr rfl) (Or.inl rfl)

/-- C5: parsing the 7-byte Logical Screen Descriptor and re-serializing the
decoded fields reproduces the original 7 bytes exactly: the field
decomposition is lossless. -/
theorem C5_screen_descriptor_roundtrip (b0 b1 b2 b3 b4 b5 b6 : Nat)
    (h0 : b0 < 256) (h1 : b1 < 256) (h2 : b2 < 256) (h3 : b3 < 256)
    (h4 : b4 < 256) (h5 : b5 < 256) (h6 : b6 < 256) :
    Gif.serializeScreenDescriptor (Gif.parseScreenDescriptor b0 b1 b2 b3 b4 b5 b6) =
      [b0, b1, b2, b3, b4, b5, b6] := by
  simp only [Gif.parseScreenDescriptor, Gif.serializeScreenDescriptor,
    List.cons.injEq, and_true]
  refine ⟨?_, ?_, ?_, ?_, ?_⟩ <;> omega

/-- C2: for every graphic-control extension block whose declared size byte
is not 4, parsing fails with the fatal MalformedBlock error
(`invalidGraphicControlSize`); moreover, whatever bytes follow the bad size
byte, the parse never completes without an error, so it never silently
truncates, pads, or continues to subsequent blocks. -/
theorem C2_graphic_control_bad_size (size flags : Nat) (rest : List Nat)
    (h : size ≠ 4) :
    (Gif.parseGraphicControl (size :: flags :: rest)).2 =
      some .invalidGraphicControlSize ∧
    ∀ tail : List Nat, ((Gif.parseGraphicControl (size :: tail)).2).isSome := by
  constructor
  · simp [Gif.parseGraphicControl, h]
  · intro tail
    cases tail <;> simp [Gif.parseGraphicControl, h]

/-- C2 witness: size byte 5 with an otherwise well-formed continuation. -/
theorem C2_graphic_control_bad_size_witness :
    (Gif.parseGraphicControl (5 :: 0 :: [100, 0, 0, 0])).2 =
      some .invalidGraphicControlSize ∧
    ∀ tail : List Nat, ((Gif.parseGraphicControl (5 :: tail)).2).isSome :=
  C2_graphic_control_bad_size 5 0 [100, 0, 0, 0] (by decide)

/-- C9: the size check in `parseGraphicControl` runs only after the size
byte and the full flag bitfield have been yielded: at the moment of failure
the partially built field list is exactly size, has_transp, user_input,
disposal_method and reserved — the error is not raised directly after the
size byte. -/
theorem C9_fields_emitted_before_size_check (size flags : Nat)
    (rest : List Nat) (h : size ≠ 4) :
    Gif.parseGraphicControl (size :: flags :: rest) =
      (Gif.gceHeaderFields size flags, some .invalidGraphicControlSize) ∧
    (Gif.gceHeaderFields size flags).map Gif.Field.name =
      ["size", "has_transp", "user_input", "disposal_method", "reserved[]"] := by
  constructor
  · simp [Gif.parseGraphicControl, h]
  · rfl

/-- C9 witness: size byte 0, flag byte 0xff. -/
theorem C9_fields_emitted_before_size_check_witness :
    Gif.parseGraphicControl (0 :: 0xff :: []) =
      (Gif.gceHeaderFields 0 0xff, some .invalidGraphicControlSize) ∧
    (Gif.gceHeaderFields 0 0xff).map Gif.Field.name =
      ["size", "has_transp", "user_input", "disposal_method", "reserved[]"] :=
  C9_fields_emitted_before_size_check 0 0xff [] (by decide)

/-- C7: the claim says the parser exposes the delay in units of 1/100
second.  The source instead documents and displays it as milliseconds: the
delay field it emits carries the description string "Delay time in
millisecond" (and its display handler formats the raw value as a duration
in milliseconds).  Evaluated at a graphic control whose delay bytes are
`64 00` (value 100, i.e. one second in GIF's 1/100 s unit), the emitted
field is labelled as 100 milliseconds. -/
theorem C7_delay_described_as_milliseconds :
    (Gif.parseGraphicControl [4, 0, 0x64, 0x00, 0, 0]).1.map
        (fun f => (f.name, f.description, f.value)) =
      [("size", "Block size (4)", .uint 4),
       ("has_transp", "Has transparency", .uint 0),
       ("user_input", "User input", .uint 0),
       ("disposal_method", "", .uint 0),
       ("reserved[]", "", .uint 0),
       ("delay", "Delay time in millisecond", .uint 100),
       ("transp", "Transparent color index", .uint 0),
       ("terminator", "Terminator (0)", .uint 0)] := by
  decide

/-- Helper: a found search result lies at or after the search start. -/
theorem searchNulSemicolon_ge (stream : List Nat) (s e pos : Nat)
    (h : Gif.searchNulSemicolon stream s e = some pos) : s ≤ pos := by
  unfold Gif.searchNulSemicolon at h
  cases hf : (List.range stream.length).find? (fun i =>
      decide (s ≤ 8 * i) && decide (8 * i < e) &&
      Gif.matchesNulSemicolon stream i) with
  | none => rw [hf] at h; simp at h
  | some i =>
    rw [hf] at h
    simp only [Option.map_some', Option.some.injEq] at h
    have hp := List.find?_some hf
    simp only [Bool.and_eq_true, decide_eq_true_eq] at hp
    omega

/-- C3: once the first image block has been entered, `createContentSize`
searches forward from the image block's end for the NUL, 0x3B pattern
within a `MAX_FILE_SIZE`-byte window; when the search finds the pattern at
bit offset `pos`, the declared size is `pos + 16` bits — the match offset
plus 2 bytes — and when the search finds nothing in the window no size is
returned.  The hypothesis `0 < imageEnd` holds for every parse, since the
image block begins after the 6-byte signature and 7-byte screen
descriptor. -/
theorem C3_content_size (stream : List Nat) (imageEnd : Nat)
    (h : 0 < imageEnd) :
    (∀ pos, Gif.searchNulSemicolon stream imageEnd
        (imageEnd + Gif.MAX_FILE_SIZE * 8) = some pos →
      Gif.createContentSize stream imageEnd = some (pos + 16)) ∧
    (Gif.searchNulSemicolon stream imageEnd
        (imageEnd + Gif.MAX_FILE_SIZE * 8) = none →
      Gif.createContentSize stream imageEnd = none) := by
  constructor
  · intro pos hp
    have hge := searchNulSemicolon_ge stream _ _ pos hp
    unfold Gif.createContentSize
    rw [hp]
    show (if pos ≠ 0 then some (pos + 16) else none) = some (pos + 16)
    rw [if_pos (by omega)]
  · intro hn
    unfold Gif.createContentSize
    rw [hn]

/-- C3 witness: a 5-byte tail whose NUL, 0x3B pattern sits at byte 3
(bit 24), searched from bit 8; the estimated size is 24 + 16 = 40 bits. -/
theorem C3_content_size_witness :
    Gif.createContentSize [1, 1, 1, 0, 0x3b] 8 = some 40 := by
  have h := (C3_content_size [1, 1, 1, 0, 0x3b] 8 (by decide)).1 24 (by decide)
  simpa using h

/-- C4: a byte at the block-loop separator position that is not 0x21, 0x2C
or 0x3B stops the loop at once with the unexpected-separator outcome
carrying the offending byte, and no block is parsed after it, whatever
bytes follow. -/
theorem C4_unexpected_separator (b : Nat) (rest : List Nat)
    (h : b ≠ 0x21 ∧ b ≠ 0x2c ∧ b ≠ 0x3b) :
    Gif.blockLoop (b :: rest) = .unexpectedSeparator 0 b := by
  simp [Gif.blockLoop, h.1, h.2.1, h.2.2]

/-- C4 witness: byte 0x41 before two further well-formed separators. -/
theorem C4_unexpected_separator_witness :
    Gif.blockLoop (0x41 :: [0x21, 0x3b]) = .unexpectedSeparator 0 0x41 :=
  C4_unexpected_separator 0x41 [0x21, 0x3b] (by decide)

/-- C6: the claim states that payload bytes `01 2C` decode to
loop_count=300.  False: `GifFile.endian` is little-endian, so the u16 loop
count read from bytes `01 2C` is 0x01 + 256 * 0x2C = 11265, not 300. -/
theorem C6_counterexample :
    Gif.lookupField (Gif.parseApplicationExtension
        ([11] ++ Gif.NETSCAPE20 ++ [3, 1, 0x01, 0x2c, 0])).1 "loop_count" =
      some ⟨"loop_count", "", .uint 11265⟩ ∧ (11265 : Nat) ≠ 300 := by
  constructor
  · rfl
  · decide

/-- C6 (amended): a NETSCAPE2.0 application extension with size=3 and
sub-code=1 reads a 2-byte loop count decoded as a little-endian u16 —
`lo + 256 * hi` for payload bytes `lo hi`; in particular bytes `2C 01`
decode to loop_count=300 and bytes `E8 03` decode to loop_count=1000. -/
theorem C6_amended (lo hi t : Nat) (rest : List Nat) :
    Gif.parseApplicationExtension
        ([11] ++ Gif.NETSCAPE20 ++ [3, 1, lo, hi, t] ++ rest) =
      ([⟨"app_name", "Application name", .bytes Gif.NETSCAPE20⟩,
        ⟨"size", "", .uint 3⟩,
        ⟨"netscape_code", "", .uint 1⟩,
        ⟨"loop_count", "", .uint (lo + 256 * hi)⟩,
        ⟨"terminator", "Terminator (0)", .uint t⟩], none) ∧
    Gif.lookupField (Gif.parseApplicationExtension
        ([11] ++ Gif.NETSCAPE20 ++ [3, 1, 0x2c, 0x01, 0])).1 "loop_count" =
      some ⟨"loop_count", "", .uint 300⟩ ∧
    Gif.lookupField (Gif.parseApplicationExtension
        ([11] ++ Gif.NETSCAPE20 ++ [3, 1, 0xe8, 0x03, 0])).1 "loop_count" =
      some ⟨"loop_count", "", .uint 1000⟩ := by
  refine ⟨?_, rfl, rfl⟩
  simp [Gif.parseApplicationExtension, Gif.NETSCAPE20, Gif.finishTerminator]

/-- Helper: a field lookup fails when no field bears the name. -/
theorem lookupField_eq_none {fs : List Gif.Field} {name : String}
    (h : ∀ f ∈ fs, f.name ≠ name) : Gif.lookupField fs name = none := by
  unfold Gif.lookupField
  rw [List.find?_eq_none]
  intro f hf
  simpa using h f hf

/-- Helper: no field emitted by `parseGraphicControl` is named "func". -/
theorem parseGraphicControl_no_func (input : List Nat) :
    ∀ f ∈ (Gif.parseGraphicControl input).1, f.name ≠ "func" := by
  rcases input with _ | ⟨size, rest⟩
  · simp [Gif.parseGraphicControl]
  rcases rest with _ | ⟨flags, rest2⟩
  · intro f hf
    simp [Gif.parseGraphicControl] at hf
    simp [hf]
  by_cases hs : size = 4
  · subst hs
    rcases rest2 with _ | ⟨lo, _ | ⟨hi, _ | ⟨transp, _ | ⟨term, r⟩⟩⟩⟩ <;>
      · intro f hf
        simp [Gif.parseGraphicControl, Gif.gceHeaderFields] at hf
        rcases hf with rfl | rfl | rfl | rfl | rfl | rfl | rfl | rfl <;> simp
  · intro f hf
    simp [Gif.parseGraphicControl, Gif.gceHeaderFields, hs] at hf
    rcases hf with rfl | rfl | rfl | rfl | rfl <;> simp

/-- Helper: every field emitted by `parseComments` is named "comment[]". -/
theorem parseComments_names : ∀ N (input : List Nat), input.length ≤ N →
    ∀ f ∈ (Gif.parseComments input).1, f.name = "comment[]" := by
  intro N
  induction N with
  | zero =>
    intro input hlen f hf
    rw [List.length_eq_zero.mp (Nat.le_zero.mp hlen)] at hf
    simp [Gif.parseComments] at hf
  | succ N ih =>
    intro input hlen f hf
    rcases input with _ | ⟨n, rest⟩
    · simp [Gif.parseComments] at hf
    by_cases hn : n ≤ rest.length
    · by_cases h0 : n = 0
      · simp [Gif.parseComments, hn, h0] at hf
        simp [hf]
      · simp [Gif.parseComments, hn, h0] at hf
        rcases hf with rfl | hf
        · rfl
        · exact ih (rest.drop n) (by simp at hlen ⊢; omega) f hf
    · simp [Gif.parseComments, hn] at hf

/-- Helper: every field emitted by `defaultExtensionParser` is named
"size[]" or "content[]". -/
theorem defaultExtensionParser_names : ∀ N (input : List Nat),
    input.length ≤ N → ∀ f ∈ (Gif.defaultExtensionParser input).1,
    f.name = "size[]" ∨ f.name = "content[]" := by
  intro N
  induction N with
  | zero =>
    intro input hlen f hf
    rw [List.length_eq_zero.mp (Nat.le_zero.mp hlen)] at hf
    simp [Gif.defaultExtensionParser] at hf
  | succ N ih =>
    intro input hlen f hf
    rcases input with _ | ⟨n, rest⟩
    · simp [Gif.defaultExtensionParser] at hf
    by_cases h0 : 0 < n
    · by_cases hn : n ≤ rest.length
      · simp [Gif.defaultExtensionParser, h0, hn] at hf
        rcases hf with rfl | rfl | hf
        · left; rfl
        · right; rfl
        · exact ih (rest.drop n) (by simp at hlen ⊢; omega) f hf
      · simp [Gif.defaultExtensionParser, h0, hn] at hf
        simp [hf]
    · simp [Gif.defaultExtensionParser, h0] at hf
      simp [hf]

/-- Helper: no field emitted by `parseApplicationExtension` is named
"func". -/
theorem parseApplicationExtension_no_func (input : List Nat) :
    ∀ f ∈ (Gif.parseApplicationExtension input).1, f.name ≠ "func" := by
  rcases input with _ | ⟨n, rest⟩
  · simp [Gif.parseApplicationExtension]
  intro f hf
  by_cases hn : n ≤ rest.length
  · simp only [Gif.parseApplicationExtension, hn, if_true] at hf
    rcases hd : rest.drop n with _ | ⟨size, rest2⟩ <;> rw [hd] at hf
    · simp at hf
      simp [hf]
    · by_cases hns : rest.take n = Gif.NETSCAPE20 ∧ size = 3
      · rcases rest2 with _ | ⟨code, rest3⟩
        · simp [hns] at hf
          rcases hf with rfl | rfl <;> simp
        · by_cases hc : code = 1
          · subst hc
            rcases rest3 with _ | ⟨lo, _ | ⟨hi, rest4⟩⟩
            · simp [hns] at hf
              rcases hf with rfl | rfl | rfl <;> simp
            · simp [hns] at hf
              rcases hf with rfl | rfl | rfl <;> simp
            · rcases rest4 with _ | ⟨t, r⟩ <;>
                · simp [hns, Gif.finishTerminator] at hf
                  rcases hf with rfl | rfl | rfl | rfl | rfl <;> simp
          · by_cases h2 : 2 ≤ rest3.length
            · rcases rest3 with _ | ⟨a, _ | ⟨b, _ | ⟨c, r⟩⟩⟩ <;>
                simp at h2 <;>
                · simp [hns, hc, h2, Gif.finishTerminator] at hf
                  rcases hf with rfl | rfl | rfl | rfl | rfl <;> simp
            · simp [hns, hc, h2] at hf
              rcases hf with rfl | rfl | rfl <;> simp
      · by_cases hsz : size ≤ rest2.length
        · rcases hd2 : rest2.drop size with _ | ⟨t, r⟩ <;>
            · simp [hns, hsz, hd2, Gif.finishTerminator] at hf
              first
              | (rcases hf with rfl | rfl | rfl <;> simp)
              | (rcases hf with rfl | rfl | rfl | rfl <;> simp)
        · simp [hns, hsz] at hf
          rcases hf with rfl | rfl <;> simp
  · simp [Gif.parseApplicationExtension, hn] at hf

/-- C5 witness: the round trip at a concrete byte vector. -/
theorem C5_screen_descriptor_roundtrip_witness :
    Gif.serializeScreenDescriptor
      (Gif.parseScreenDescriptor 0x40 0x01 0xf0 0x00 0xa7 0x03 0x00) =
      [0x40, 0x01, 0xf0, 0x00, 0xa7, 0x03, 0x00] :=
  C5_screen_descriptor_roundtrip 0x40 0x01 0xf0 0x00 0xa7 0x03 0x00
    (by decide) (by decide) (by decide) (by decide)
    (by decide) (by decide) (by decide)

/-- C8: for an extension code outside the three known codes 0xF9, 0xFE,
0xFF, no description is preset, so requesting the block's description runs
the lazy `createDescription`, which looks up a child field named "func";
no parser path ever emits a field of that name, so the lookup — and with
it the description request — fails; for the three known codes a preset
description string masks this, so the lookup never happens. -/
theorem C8_unknown_extension_description (code : Nat) (rest : List Nat)
    (h : code ≠ 0xf9 ∧ code ≠ 0xfe ∧ code ≠ 0xff) :
    Gif.extensionPresetDescription code = none ∧
    Gif.lookupField (Gif.extensionFields (code :: rest)).1 "func" = none ∧
    Gif.extensionDescription (code :: rest) = none ∧
    Gif.extensionPresetDescription 0xf9 = some "Graphic control" ∧
    Gif.extensionPresetDescription 0xfe = some "Comments" ∧
    Gif.extensionPresetDescription 0xff = some "Application extension" := by
  have hpre : Gif.extensionPresetDescription code = none := by
    simp [Gif.extensionPresetDescription, h.1, h.2.1, h.2.2]
  have hfields : (Gif.extensionFields (code :: rest)).1 =
      (⟨"code", "Extension code", .uint code⟩ : Gif.Field) ::
        (Gif.defaultExtensionParser rest).1 := by
    simp [Gif.extensionFields, Gif.extensionParserFor, h.1, h.2.1, h.2.2]
  have hlook : Gif.lookupField (Gif.extensionFields (code :: rest)).1 "func" =
      none := by
    rw [hfields]
    apply lookupField_eq_none
    intro f hf
    rcases List.mem_cons.mp hf with rfl | hf2
    · simp
    · rcases defaultExtensionParser_names rest.length rest le_rfl f hf2 with
        h1 | h1 <;> simp [h1]
  refine ⟨hpre, hlook, ?_, rfl, rfl, rfl⟩
  simp only [Gif.extensionDescription, hpre, hlook]

/-- C8 witness: extension code 0x01 followed by a zero size byte. -/
theorem C8_unknown_extension_description_witness :
    Gif.extensionPresetDescription 0x01 = none ∧
    Gif.lookupField (Gif.extensionFields (0x01 :: [0])).1 "func" = none ∧
    Gif.extensionDescription (0x01 :: [0]) = none ∧
    Gif.extensionPresetDescription 0xf9 = some "Graphic control" ∧
    Gif.extensionPresetDescription 0xfe = some "Comments" ∧
    Gif.extensionPresetDescription 0xff = some "Application extension" :=
  C8_unknown_extension_description 0x01 [0] (by decide)

/-- Helper for C10: a successful `parseComments` run emits a nonempty list
of fields all named "comment[]", every field before the last has nonzero
length, and the last field has length 0. -/
theorem parseComments_ok : ∀ N (input : List Nat), input.length ≤ N →
    (Gif.parseComments input).2 = none →
    (Gif.parseComments input).1 ≠ [] ∧
    (∀ f ∈ (Gif.parseComments input).1.dropLast, Gif.commentLength f ≠ 0) ∧
    (∃ g, (Gif.parseComments input).1.getLast? = some g ∧
      Gif.commentLength g = 0) := by
  intro N
  induction N with
  | zero =>
    intro input hlen herr
    rw [List.length_eq_zero.mp (Nat.le_zero.mp hlen)] at herr
    simp [Gif.parseComments] at herr
  | succ N ih =>
    intro input hlen herr
    rcases input with _ | ⟨n, rest⟩
    · simp [Gif.parseComments] at herr
    by_cases hn : n ≤ rest.length
    · by_cases h0 : n = 0
      · subst h0
        refine ⟨by simp [Gif.parseComments, hn], ?_, ?_⟩
        · intro f hf
          simp [Gif.parseComments, hn] at hf
        · refine ⟨⟨"comment[]", "", .bytes []⟩, ?_, by simp [Gif.commentLength]⟩
          simp [Gif.parseComments, hn]
      · have heq : Gif.parseComments (n :: rest) =
            ((⟨"comment[]", "", .bytes (rest.take n)⟩ : Gif.Field) ::
               (Gif.parseComments (rest.drop n)).1,
             (Gif.parseComments (rest.drop n)).2) := by
          simp [Gif.parseComments, hn, h0]
        rw [heq] at herr
        have hrec := ih (rest.drop n)
          (by simp only [List.length_cons, List.length_drop] at hlen ⊢; omega) herr
        obtain ⟨hne, hmid, g, hg, hg0⟩ := hrec
        rcases hl : (Gif.parseComments (rest.drop n)).1 with _ | ⟨b, l⟩
        · exact absurd hl hne
        refine ⟨by rw [heq]; simp, ?_, ?_⟩
        · intro f hf
          rw [heq, hl] at hf
          rw [List.dropLast_cons₂] at hf
          rcases List.mem_cons.mp hf with rfl | hf2
          · have hcl : Gif.commentLength
                ⟨"comment[]", "", .bytes (rest.take n)⟩ = (rest.take n).length :=
              rfl
            rw [hcl, List.length_take]
            omega
          · exact hmid f (hl ▸ hf2)
        · refine ⟨g, ?_, hg0⟩
          rw [heq, hl, List.getLast?_cons_cons]
          rw [hl] at hg
          exact hg
    · simp [Gif.parseComments, hn] at herr

/-- C10: for every comment extension input on which `parseComments`
completes without error, at least one comment field is emitted, every
emitted field is a comment field, every comment before the last has
nonzero length (the loop reads on exactly while lengths are nonzero), and
the loop stops exactly after the first zero-length string, which is itself
emitted: the final emitted comment has length 0. -/
theorem C10_comments (input : List Nat)
    (h : (Gif.parseComments input).2 = none) :
    (Gif.parseComments input).1 ≠ [] ∧
    (∀ f ∈ (Gif.parseComments input).1, f.name = "comment[]") ∧
    (∀ f ∈ (Gif.parseComments input).1.dropLast, Gif.commentLength f ≠ 0) ∧
    (∃ g, (Gif.parseComments input).1.getLast? = some g ∧
      Gif.commentLength g = 0) := by
  have hok := parseComments_ok input.length input le_rfl h
  exact ⟨hok.1, parseComments_names input.length input le_rfl, hok.2.1, hok.2.2⟩

/-- C10 witness: the comment stream [3]"abc"[0] — content bytes 97 98 99 —
followed by the zero-length terminator. -/
theorem C10_comments_witness :
    ((Gif.parseComments [3, 97, 98, 99, 0]).2 = none) ∧
    ((Gif.parseComments [3, 97, 98, 99, 0]).1 ≠ [] ∧
     (∀ f ∈ (Gif.parseComments [3, 97, 98, 99, 0]).1, f.name = "comment[]") ∧
     (∀ f ∈ (Gif.parseComments [3, 97, 98, 99, 0]).1.dropLast,
        Gif.commentLength f ≠ 0) ∧
     (∃ g, (Gif.parseComments [3, 97, 98, 99, 0]).1.getLast? = some g ∧
        Gif.commentLength g = 0)) :=
  ⟨by simp [Gif.parseComments], C10_comments [3, 97, 98, 99, 0]
    (by simp [Gif.parseComments])⟩
